import Mathlib

/-!
Shallow embedding of the pricing/route-matrix engine, symbol directory and
purchase-flow controller of the x402 price-data gateway.  JavaScript objects
(`Record<string, T>`) are modelled as insertion-ordered association lists,
JavaScript numbers as rationals, and fallible operations as `Option`.
-/

namespace Gateway

/-- Association-list lookup modelling JavaScript `obj[key]` access:
the first entry whose key equals `k`. -/
def findVal (l : List (String × α)) (k : String) : Option α :=
  (l.find? (fun p => p.1 == k)).map Prod.snd

/-- One row of the `durations` section of pricing.json
(`{path, label, basePriceDollars}`). -/
structure DurationTier where
  path : String
  label : String
  basePriceDollars : ℚ
deriving DecidableEq

/-- One value of the `assetTypes` record of pricing.json. -/
structure AssetTypeDef where
  label : String
  multiplier : ℚ
deriving DecidableEq

/-- One value of the `channels` record of pricing.json. -/
structure ChannelDef where
  label : String
  wsChannel : String
  multiplier : ℚ
deriving DecidableEq

/-- The parsed pricing document (`z.infer<typeof pricingSchema>`). -/
structure PricingConfig where
  durations : List DurationTier
  assetTypes : List (String × AssetTypeDef)
  channels : List (String × ChannelDef)
deriving DecidableEq

/-- The zod refinements of `pricingSchema`: at least one duration, positive
base prices, non-empty assetTypes and channels records, positive multipliers. -/
def pricingSchemaCheck (c : PricingConfig) : Bool :=
  decide (1 ≤ c.durations.length) &&
  c.durations.all (fun d => decide (0 < d.basePriceDollars)) &&
  decide (0 < c.assetTypes.length) &&
  c.assetTypes.all (fun p => decide (0 < p.2.multiplier)) &&
  decide (0 < c.channels.length) &&
  c.channels.all (fun p => decide (0 < p.2.multiplier))

/-- Result of reading and JSON-parsing pricing.json: `none` models a missing
file, a JSON parse failure or a document of the wrong shape; `some c` models a
well-typed document that still has to pass the zod refinements. -/
abbrev RawPricingDoc := Option PricingConfig

/-- `loadConfig`: read + parse + schema-validate; any failure yields `null`. -/
def loadConfig (doc : RawPricingDoc) : Option PricingConfig :=
  match doc with
  | none => none
  | some c => if pricingSchemaCheck c then some c else none

/-- The initial load at module import: an invalid document throws, so the
service never starts. -/
def startupLoad (doc : RawPricingDoc) : Except String PricingConfig :=
  match loadConfig doc with
  | some c => Except.ok c
  | none => Except.error "pricing.json is missing or invalid - cannot start server"

/-- The `fs.watch` change callback: a successful reload replaces the snapshot,
a failed reload is ignored and the previous snapshot is kept. -/
def reloadStep (current : PricingConfig) (doc : RawPricingDoc) : PricingConfig :=
  match loadConfig doc with
  | some updated => updated
  | none => current

/-- JavaScript `Math.round`: nearest integer, halves toward positive infinity. -/
def jsRound (q : ℚ) : ℤ := Rat.floor (q + 1/2)

/-- Decimal rendering of a number of cents with exactly two fraction digits,
as produced by `Number.prototype.toFixed(2)` on `cents / 100`. -/
def formatCents (cents : ℤ) : String :=
  let n := cents.natAbs
  (if cents < 0 then "-" else "") ++
    toString (n / 100) ++ "." ++ (if n % 100 < 10 then "0" else "") ++ toString (n % 100)

/-- The `{dollars, formatted}` value returned by `computePrice`. -/
structure PriceResult where
  dollars : ℚ
  formatted : String
deriving DecidableEq

/-- `computePrice(assetType, channel, durationPath)`: looks the three keys up
in the current snapshot, multiplies, rounds to 2 decimal places and formats
with a leading currency symbol; `undefined` if any key is absent. -/
def computePrice (cfg : PricingConfig) (assetType channel durationPath : String) :
    Option PriceResult :=
  match findVal cfg.assetTypes assetType, findVal cfg.channels channel,
      cfg.durations.find? (fun d => d.path == durationPath) with
  | some at_, some ch, some dur =>
    let dollars := dur.basePriceDollars * at_.multiplier * ch.multiplier
    let cents := jsRound (dollars * 100)
    some { dollars := (cents : ℚ) / 100, formatted := "$" ++ formatCents cents }
  | _, _, _ => none

/-- One element of the array built by `getAllRouteConfigs`. -/
structure RouteConfig where
  routePath : String
  price : String
  assetType : String
  channel : String
  duration : String
deriving DecidableEq

/-- Builds the `RouteConfig` pushed for one priceable combination. -/
def mkRouteConfig (assetType channel : String) (dur : DurationTier)
    (p : PriceResult) : RouteConfig :=
  { routePath := "/v1/purchase/" ++ assetType ++ "/" ++ channel ++ "/" ++ dur.path
    price := p.formatted
    assetType := assetType
    channel := channel
    duration := dur.path }

/-- `getAllRouteConfigs()`: the triple loop over asset-type keys, channel keys
and durations, pushing a route for every combination whose price resolves. -/
def getAllRouteConfigs (cfg : PricingConfig) : List RouteConfig :=
  (cfg.assetTypes.map Prod.fst).foldl (fun acc0 assetType =>
    (cfg.channels.map Prod.fst).foldl (fun acc1 channel =>
      cfg.durations.foldl (fun acc2 dur =>
        match computePrice cfg assetType channel dur.path with
        | some p => acc2 ++ [mkRouteConfig assetType channel dur p]
        | none => acc2) acc1) acc0) []

/-- Modelled from the spec: the full Cartesian product of configured asset
types, channels and durations. -/
def routeProduct (cfg : PricingConfig) : List (String × String × DurationTier) :=
  (cfg.assetTypes.map Prod.fst).flatMap (fun a =>
    (cfg.channels.map Prod.fst).flatMap (fun c =>
      cfg.durations.map (fun d => (a, c, d))))

/-- Modelled from the spec: the route list as the Cartesian product filtered
to the priceable combinations, one route per such combination. -/
def routesSpec (cfg : PricingConfig) : List RouteConfig :=
  (routeProduct cfg).filterMap (fun t =>
    (computePrice cfg t.1 t.2.1 t.2.2.path).map (mkRouteConfig t.1 t.2.1 t.2.2))

/-! ## Symbol directory (symbols.ts) -/

/-- Maps API `asset_type` values to pricing-config keys (`ASSET_TYPE_MAP`). -/
def ASSET_TYPE_MAP : List (String × String) :=
  [("crypto", "crypto"), ("equity", "equity"), ("fx", "fx"), ("rates", "rates"),
   ("commodity", "commodity"), ("kalshi", "kalshi"), ("nav", "nav"),
   ("metal", "commodity")]

/-- One entry of the upstream symbol catalog. -/
structure CatalogEntry where
  state : String
  asset_type : String
  symbol : String
  pyth_lazer_id : ℤ
deriving DecidableEq

/-- The `{feedId, assetType}` record stored per ticker. -/
structure TickerInfo where
  feedId : ℤ
  assetType : String
deriving DecidableEq

/-- The nested map assetType → ticker → TickerInfo, as insertion-ordered
association lists. -/
abbrev Directory := List (String × List (String × TickerInfo))

/-- Splits a character list at the first occurrence of `sep`:
`some (before, after)`, or `none` when `sep` does not occur. -/
def splitFirst (sep : Char) : List Char → Option (List Char × List Char)
  | [] => none
  | c :: cs =>
    if c = sep then some ([], cs)
    else (splitFirst sep cs).map (fun p => (c :: p.1, p.2))

/-- The suffix after the last occurrence of a dot, or `none` when no dot
occurs (JavaScript `lastIndexOf(".")`). -/
def afterLastDot : List Char → Option (List Char)
  | [] => none
  | c :: cs =>
    match afterLastDot cs with
    | some r => some r
    | none => if c = '.' then some cs else none

/-- `parseTickerName`: derive `BASE-QUOTE` from a Pyth symbol string - the
segment after the last dot before the first slash, a hyphen, and the remainder
after the slash; `null` when the slash or dot is missing or a part is empty. -/
def parseTickerName (symbol : String) : Option String :=
  match splitFirst '/' symbol.toList with
  | none => none
  | some (pre, quote) =>
    match afterLastDot pre with
    | none => none
    | some base =>
      if base.isEmpty || quote.isEmpty then none
      else some (String.mk base ++ "-" ++ String.mk quote)

/-- JavaScript assignment `map[k] = inner` on an object: replaces the value
when the key is present, appends the key at the end otherwise. -/
def setInner (d : Directory) (k : String) (inner : List (String × TickerInfo)) :
    Directory :=
  if (d.find? (fun p => p.1 == k)).isSome then
    d.map (fun p => if p.1 == k then (k, inner) else p)
  else d ++ [(k, inner)]

/-- The body of the ingestion loop of `initSymbols` for one catalog entry:
skip non-stable entries, entries whose asset type does not alias-map to a
configured key, and unparsable symbols; insert first-seen-wins otherwise. -/
def dirStep (assetTypes : List (String × AssetTypeDef)) (map : Directory)
    (item : CatalogEntry) : Directory :=
  if item.state != "stable" then map
  else
    match findVal ASSET_TYPE_MAP item.asset_type with
    | none => map
    | some mappedType =>
      if (findVal assetTypes mappedType).isNone then map
      else
        match parseTickerName item.symbol with
        | none => map
        | some ticker =>
          let inner := (findVal map mappedType).getD []
          if (findVal inner ticker).isSome then map
          else setInner map mappedType
            (inner ++ [(ticker, { feedId := item.pyth_lazer_id, assetType := mappedType })])

/-- `initSymbols`: one ingestion pass over the fetched catalog, building the
directory from scratch. -/
def initSymbols (assetTypes : List (String × AssetTypeDef))
    (catalog : List CatalogEntry) : Directory :=
  catalog.foldl (dirStep assetTypes) []

/-- `getTickerInfo(assetType, ticker)`: point lookup `byAssetType[at]?.[t]`. -/
def getTickerInfo (d : Directory) (assetType ticker : String) : Option TickerInfo :=
  (findVal d assetType).bind (fun inner => findVal inner ticker)

/-- `getTickersForAssetType(assetType)`: the full inner map, or empty. -/
def getTickersForAssetType (d : Directory) (assetType : String) :
    List (String × TickerInfo) :=
  (findVal d assetType).getD []

/-! ## Purchase flow controller (routes/purchase.ts) -/

/-- Character class `[A-Z0-9]` of the ticker regex. -/
def isUpperAlnum (c : Char) : Bool := c.isUpper || c.isDigit

/-- The zod regex `^[A-Z0-9]+-[A-Z]+$` on the `ticker` body field: one or more
uppercase alphanumerics, a hyphen, one or more uppercase letters. -/
def tickerMatches (s : String) : Bool :=
  match splitFirst '-' s.toList with
  | none => false
  | some (base, quote) =>
    !base.isEmpty && base.all isUpperAlnum && !quote.isEmpty && quote.all Char.isUpper

/-- The environment values echoed into the credential descriptor
(`PYTH_PRO_ACCESS_TOKEN`, `PYTH_PRO_WS_URLS`). -/
structure EnvConfig where
  PYTH_PRO_ACCESS_TOKEN : String
  PYTH_PRO_WS_URLS : List String
deriving DecidableEq

/-- The `pythPro.subscribe` message of the credential descriptor. -/
structure SubscribeMsg where
  msgType : String
  subscriptionId : ℕ
  priceFeedIds : List ℤ
  properties : List String
  formats : List String
  channel : String
  deliveryFormat : String
  jsonBinaryEncoding : String
deriving DecidableEq

/-- The JSON body of a fulfilled purchase response. -/
structure Credential where
  ticker : String
  feedId : ℤ
  assetType : String
  channel : String
  duration : String
  pricePaid : Option String
  accessToken : String
  websocketUrls : List String
  authMethod : String
  subscribe : SubscribeMsg
deriving DecidableEq

/-- The three possible responses of the purchase handler: 400 VALIDATION_ERROR,
400 INVALID_TICKER (with the truncated list of valid tickers for the asset
type), or 200 with the credential descriptor. -/
inductive PurchaseResult where
  | validationError : PurchaseResult
  | invalidTicker (available : List String) : PurchaseResult
  | fulfilled (cred : Credential) : PurchaseResult
deriving DecidableEq

/-- The handler returned by `purchaseHandler(assetType, channelSlug, duration)`.
The request body is abstracted to the `ticker` field when it is a present
string (`none` models a missing body, missing field or non-string field); the
payment step is an external precondition and does not appear. -/
def purchaseHandler (cfg : PricingConfig) (env : EnvConfig) (dir : Directory)
    (assetType channelSlug duration : String) (bodyTicker : Option String) :
    PurchaseResult :=
  match bodyTicker with
  | none => .validationError
  | some ticker =>
    if !tickerMatches ticker then .validationError
    else
      match getTickerInfo dir assetType ticker with
      | none => .invalidTicker ((getTickersForAssetType dir assetType).map Prod.fst)
      | some tickerInfo =>
        let price := computePrice cfg assetType channelSlug duration
        let wsChannel := ((findVal cfg.channels channelSlug).map
          (fun c => c.wsChannel)).getD "fixed_rate@200ms"
        .fulfilled
          { ticker := ticker
            feedId := tickerInfo.feedId
            assetType := assetType
            channel := channelSlug
            duration := duration
            pricePaid := price.map (fun p => p.formatted)
            accessToken := env.PYTH_PRO_ACCESS_TOKEN
            websocketUrls := env.PYTH_PRO_WS_URLS
            authMethod := "Pass as Authorization: Bearer {accessToken} header when connecting to WebSocket"
            subscribe :=
              { msgType := "subscribe"
                subscriptionId := 1
                priceFeedIds := [tickerInfo.feedId]
                properties := ["price", "bestBidPrice", "bestAskPrice", "exponent", "confidence"]
                formats := ["evm", "solana"]
                channel := wsChannel
                deliveryFormat := "json"
                jsonBinaryEncoding := "hex" } }

/-! ## Pricing router (routes/pricing.ts, GET /pricing) -/

/-- The ASCII single-quote character used in error messages. -/
def quoteMark : String := String.singleton (Char.ofNat 39)

/-- Wraps a string in single quotes, as the template literals do. -/
def sq (s : String) : String := quoteMark ++ s ++ quoteMark

/-- JavaScript truthiness of an optional string query parameter: present and
non-empty. -/
def strTruthy : Option String → Bool
  | none => false
  | some s => !s.isEmpty

/-- The query of `GET /pricing` after `querySchema` (three optional strings). -/
structure PricingQuery where
  ticker : Option String
  assetType : Option String
  channel : Option String
deriving DecidableEq

/-- One row of the pricing matrix of the 200 response. -/
structure PricingEntry where
  assetType : String
  channel : String
  duration : String
  price : String
  purchaseUrl : String
deriving DecidableEq

/-- The `{code, message, hint?}` error body of a 400 response. -/
structure ErrorBody where
  code : String
  message : String
  hint : Option String
deriving DecidableEq

/-- A response of the pricing router: 400 with an error body, or 200 with the
pricing matrix and the supported-ticker map (ticker → feed id per asset type). -/
inductive PricingResponse where
  | err (body : ErrorBody) : PricingResponse
  | ok (pricing : List PricingEntry)
      (supportedTickers : List (String × List (String × ℤ))) : PricingResponse
deriving DecidableEq

/-- The static lookup hint attached to the INVALID_TICKER error. -/
def symbolsHint : String :=
  "Look up valid symbols and feed IDs at https://history.pyth-lazer.dourolabs.app/history/v1/symbols"

/-- JavaScript `String.prototype.split(",")`: every comma separates two
(possibly empty) fragments. -/
def splitOnComma : List Char → List (List Char)
  | [] => [[]]
  | c :: cs =>
    if c = ',' then [] :: splitOnComma cs
    else
      match splitOnComma cs with
      | [] => [[c]]
      | g :: gs => (c :: g) :: gs

/-- The whitespace characters removed by `String.prototype.trim`. -/
def isJsWhitespace (c : Char) : Bool := c = ' ' || c = '\t' || c = '\n' || c = '\r'

/-- JavaScript `String.prototype.trim`: strip whitespace from both ends. -/
def trimChars (l : List Char) : List Char :=
  ((l.dropWhile isJsWhitespace).reverse.dropWhile isJsWhitespace).reverse

/-- Splits the `ticker` query parameter on commas, trims each piece and drops
the falsy (empty) ones: `tickerParam.split(",").map(trim).filter(Boolean)`. -/
def parsedTickers (s : String) : List String :=
  ((splitOnComma s.toList).map (fun l => String.mk (trimChars l))).filter
    (fun t => !t.isEmpty)

/-- The `GET /pricing` handler: validates the optional assetType and channel
filters, rejects tickers not found in any configured asset type, then builds
the pricing matrix and the supported-ticker map. -/
def pricingHandler (cfg : PricingConfig) (dir : Directory) (q : PricingQuery) :
    PricingResponse :=
  let assetTypes := cfg.assetTypes
  let channels := cfg.channels
  let durations := cfg.durations
  if strTruthy q.assetType && (findVal assetTypes (q.assetType.getD "")).isNone then
    .err { code := "INVALID_ASSET_TYPE"
           message := "Asset type " ++ sq (q.assetType.getD "") ++
             " is not supported. Available: " ++
             String.intercalate ", " (assetTypes.map Prod.fst)
           hint := none }
  else if strTruthy q.channel && (findVal channels (q.channel.getD "")).isNone then
    .err { code := "INVALID_CHANNEL"
           message := "Channel " ++ sq (q.channel.getD "") ++
             " is not supported. Available: " ++
             String.intercalate ", " (channels.map Prod.fst)
           hint := none }
  else
    let tickers := if strTruthy q.ticker then parsedTickers (q.ticker.getD "") else []
    let invalidTickers := tickers.filter (fun t =>
      !(assetTypes.map Prod.fst).any (fun at_ => (getTickerInfo dir at_ t).isSome))
    if 0 < tickers.length && 0 < invalidTickers.length then
      .err { code := "INVALID_TICKER"
             message := "Ticker(s) not found: " ++ String.intercalate ", " invalidTickers
             hint := some symbolsHint }
    else
      let filteredAssetTypes :=
        if strTruthy q.assetType then [q.assetType.getD ""] else assetTypes.map Prod.fst
      let effectiveAssetTypes :=
        if 0 < tickers.length then
          filteredAssetTypes.filter (fun at_ =>
            tickers.any (fun t => (findVal (getTickersForAssetType dir at_) t).isSome))
        else filteredAssetTypes
      let filteredChannels :=
        if strTruthy q.channel then [q.channel.getD ""] else channels.map Prod.fst
      let pricing := effectiveAssetTypes.flatMap (fun at_ =>
        filteredChannels.flatMap (fun ch =>
          durations.filterMap (fun dur =>
            (computePrice cfg at_ ch dur.path).map (fun p =>
              { assetType := at_, channel := ch, duration := dur.path
                price := p.formatted
                purchaseUrl := "/v1/purchase/" ++ at_ ++ "/" ++ ch ++ "/" ++ dur.path
                : PricingEntry }))))
      let supportedTickers := effectiveAssetTypes.foldl (fun acc at_ =>
        match findVal dir at_ with
        | none => acc
        | some atTickers =>
          if 0 < tickers.length then
            let matched := tickers.filterMap (fun t =>
              (findVal atTickers t).map (fun info => (t, info.feedId)))
            if 0 < matched.length then acc ++ [(at_, matched)] else acc
          else acc ++ [(at_, atTickers.map (fun p => (p.1, p.2.feedId)))]) []
      .ok pricing supportedTickers

/-! ## Spec-side definitions used to state the claims -/

/-- Modelled from the spec: round a dollar amount to 2 decimal places
(multiply by 100, round, divide by 100). -/
def round2 (q : ℚ) : ℚ := (jsRound (q * 100) : ℚ) / 100

/-- Modelled from the spec (claim wording): a ticker pattern of an uppercase
alphanumeric base, a hyphen, and an uppercase **alphanumeric** quote. -/
def claimedTickerPattern (s : String) : Prop :=
  ∃ b q, s.toList = b ++ '-' :: q ∧ b ≠ [] ∧ b.all isUpperAlnum = true ∧
    q ≠ [] ∧ q.all isUpperAlnum = true

/-- Modelled from the spec as amended: an uppercase alphanumeric base, a
hyphen, and an uppercase **alphabetic** quote. -/
def amendedTickerPattern (s : String) : Prop :=
  ∃ b q, s.toList = b ++ '-' :: q ∧ b ≠ [] ∧ b.all isUpperAlnum = true ∧
    q ≠ [] ∧ q.all Char.isUpper = true

/-! ## Concrete example data -/

/-- The pricing document of the spec example: duration `1h` at five dollars,
asset type `crypto` with multiplier 1, channel `fixed` with multiplier 2. -/
def exampleConfig : PricingConfig :=
  { durations := [{ path := "1h", label := "1 hour", basePriceDollars := 5 }]
    assetTypes := [("crypto", { label := "Crypto", multiplier := 1 })]
    channels := [("fixed", { label := "Fixed rate", wsChannel := "fixed_rate@200ms", multiplier := 2 })] }

/-- A pricing document rejected by the schema (zero multiplier). -/
def badConfig : PricingConfig :=
  { durations := [{ path := "1h", label := "1 hour", basePriceDollars := 5 }]
    assetTypes := [("crypto", { label := "Crypto", multiplier := 0 })]
    channels := [("fixed", { label := "Fixed rate", wsChannel := "fixed_rate@200ms", multiplier := 2 })] }

/-- Example environment values. -/
def exampleEnv : EnvConfig :=
  { PYTH_PRO_ACCESS_TOKEN := "test-token"
    PYTH_PRO_WS_URLS := ["wss://pyth-lazer-0.dourolabs.app/v1/stream"] }

/-- A one-entry catalog: stable crypto BTC/USD with feed id 1. -/
def exampleCatalog : List CatalogEntry :=
  [{ state := "stable", asset_type := "crypto", symbol := "Crypto.BTC/USD", pyth_lazer_id := 1 }]

/-- The directory built from `exampleCatalog` under `exampleConfig`. -/
def exampleDir : Directory := initSymbols exampleConfig.assetTypes exampleCatalog

/-- The guard chain of the ingestion loop, collected: `some (mappedType, ticker)`
exactly when the entry is stable, alias-maps to a configured asset type, and
its symbol parses. -/
def normalizeEntry (assetTypes : List (String × AssetTypeDef)) (e : CatalogEntry) :
    Option (String × String) :=
  if e.state != "stable" then none
  else
    match findVal ASSET_TYPE_MAP e.asset_type with
    | none => none
    | some m =>
      if (findVal assetTypes m).isNone then none
      else
        match parseTickerName e.symbol with
        | none => none
        | some t => some (m, t)

/-- Invariant of directories: every inner ticker map has distinct keys. -/
def InnerNodup (d : Directory) : Prop := ∀ p ∈ d, (p.2.map Prod.fst).Nodup

/-- Discriminator: did the purchase handler answer 200 with a credential? -/
def PurchaseResult.isFulfilled : PurchaseResult → Bool
  | .fulfilled _ => true
  | _ => false

/-! ## Association-list lemmas -/

theorem findVal_nil (k : String) : findVal ([] : List (String × α)) k = none := rfl

theorem findVal_cons (k k' : String) (v : α) (l : List (String × α)) :
    findVal ((k', v) :: l) k = if k' = k then some v else findVal l k := by
  by_cases h : k' = k <;> simp [findVal, List.find?_cons, h]

theorem findVal_append_some {l₁ l₂ : List (String × α)} {k : String} {v : α}
    (h : findVal l₁ k = some v) : findVal (l₁ ++ l₂) k = some v := by
  induction l₁ with
  | nil => simp [findVal_nil] at h
  | cons p l ih =>
    obtain ⟨k', v'⟩ := p
    by_cases hk : k' = k
    · rw [findVal_cons, if_pos hk] at h
      rw [List.cons_append, findVal_cons, if_pos hk]
      exact h
    · rw [findVal_cons, if_neg hk] at h
      rw [List.cons_append, findVal_cons, if_neg hk]
      exact ih h

theorem findVal_append_none {l₁ : List (String × α)} {k : String}
    (h : findVal l₁ k = none) (l₂ : List (String × α)) :
    findVal (l₁ ++ l₂) k = findVal l₂ k := by
  induction l₁ with
  | nil => simp
  | cons p l ih =>
    obtain ⟨k', v'⟩ := p
    by_cases hk : k' = k
    · rw [findVal_cons, if_pos hk] at h
      exact absurd h (by simp)
    · rw [findVal_cons, if_neg hk] at h
      rw [List.cons_append, findVal_cons, if_neg hk]
      exact ih h

theorem findVal_isSome {l : List (String × α)} {k : String} :
    (findVal l k).isSome = true ↔ k ∈ l.map Prod.fst := by
  induction l with
  | nil => simp [findVal_nil]
  | cons p l ih =>
    obtain ⟨k', v'⟩ := p
    by_cases hk : k' = k
    · rw [findVal_cons, if_pos hk, List.map_cons, hk]
      simp
    · rw [findVal_cons, if_neg hk, List.map_cons, ih, List.mem_cons]
      have : ¬ k = k' := fun h => hk h.symm
      simp [this]

theorem findVal_eq_none {l : List (String × α)} {k : String} :
    findVal l k = none ↔ k ∉ l.map Prod.fst := by
  rw [← findVal_isSome (l := l) (k := k), Option.isSome_iff_ne_none]
  simp

theorem mem_of_findVal_eq_some {l : List (String × α)} {k : String} {v : α}
    (h : findVal l k = some v) : (k, v) ∈ l := by
  induction l with
  | nil => simp [findVal_nil] at h
  | cons p l ih =>
    obtain ⟨k', v'⟩ := p
    by_cases hk : k' = k
    · rw [findVal_cons, if_pos hk] at h
      subst hk
      cases h
      exact List.mem_cons_self _ _
    · rw [findVal_cons, if_neg hk] at h
      exact List.mem_cons_of_mem _ (ih h)

theorem findVal_of_mem_nodup {l : List (String × α)} {k : String} {v : α}
    (h : (k, v) ∈ l) (hnd : (l.map Prod.fst).Nodup) : findVal l k = some v := by
  induction l with
  | nil => simp at h
  | cons p l ih =>
    obtain ⟨k', v'⟩ := p
    simp only [List.map_cons, List.nodup_cons] at hnd
    rcases List.mem_cons.mp h with h1 | h1
    · obtain ⟨rfl, rfl⟩ := Prod.mk.injEq .. ▸ h1
      rw [findVal_cons, if_pos rfl]
    · by_cases hk : k' = k
      · subst hk
        exact absurd (List.mem_map_of_mem Prod.fst h1) hnd.1
      · rw [findVal_cons, if_neg hk]
        exact ih h1 hnd.2

theorem findVal_mapReplace_self {d : Directory} {k : String}
    (inner : List (String × TickerInfo)) (h : (findVal d k).isSome = true) :
    findVal (d.map (fun p => if p.1 == k then (k, inner) else p)) k = some inner := by
  induction d with
  | nil => simp [findVal_nil] at h
  | cons p l ih =>
    obtain ⟨k', v'⟩ := p
    by_cases hk : k' = k
    · simp only [List.map_cons, hk, beq_self_eq_true, if_true]
      rw [findVal_cons, if_pos rfl]
    · rw [findVal_cons, if_neg hk] at h
      have hbeq : (k' == k) = false := by simp [hk]
      simp only [List.map_cons, hbeq, Bool.false_eq_true, if_false]
      rw [findVal_cons, if_neg hk]
      exact ih h

theorem findVal_mapReplace_other {d : Directory} {k k' : String}
    (inner : List (String × TickerInfo)) (h : k' ≠ k) :
    findVal (d.map (fun p => if p.1 == k then (k, inner) else p)) k' = findVal d k' := by
  induction d with
  | nil => simp
  | cons p l ih =>
    obtain ⟨k'', v''⟩ := p
    by_cases hk : k'' = k
    · have hbeq : (k'' == k) = true := by simp [hk]
      simp only [List.map_cons, hbeq, if_true]
      rw [findVal_cons, if_neg (fun hh => h hh.symm), findVal_cons,
        if_neg (fun hh => h (hk ▸ hh).symm)]
      exact ih
    · have hbeq : (k'' == k) = false := by simp [hk]
      simp only [List.map_cons, hbeq, Bool.false_eq_true, if_false]
      rw [findVal_cons, findVal_cons]
      by_cases hkk : k'' = k'
      · simp [hkk]
      · rw [if_neg hkk, if_neg hkk]
        exact ih

theorem findVal_setInner_self (d : Directory) (k : String)
    (inner : List (String × TickerInfo)) :
    findVal (setInner d k inner) k = some inner := by
  unfold setInner
  by_cases h : (d.find? (fun p => p.1 == k)).isSome
  · rw [if_pos h]
    exact findVal_mapReplace_self inner (by simpa [findVal, Option.isSome_map] using h)
  · rw [if_neg h]
    have hnone : findVal d k = none := by
      rcases hf : d.find? (fun p => p.1 == k) with _ | p
      · simp [findVal, hf]
      · exact absurd (by simp [hf]) h
    rw [findVal_append_none hnone, findVal_cons, if_pos rfl]

theorem findVal_setInner_other (d : Directory) {k k' : String}
    (inner : List (String × TickerInfo)) (h : k' ≠ k) :
    findVal (setInner d k inner) k' = findVal d k' := by
  unfold setInner
  by_cases hp : (d.find? (fun p => p.1 == k)).isSome
  · rw [if_pos hp]
    exact findVal_mapReplace_other inner h
  · rw [if_neg hp]
    cases hf : findVal d k' with
    | some v => rw [findVal_append_some hf]
    | none =>
      rw [findVal_append_none hf, findVal_cons, if_neg (fun hh => h hh.symm),
        findVal_nil]

/-! ## Character-list splitting lemmas -/

theorem splitFirst_eq_some {sep : Char} {l a b : List Char}
    (h : splitFirst sep l = some (a, b)) : l = a ++ sep :: b ∧ sep ∉ a := by
  induction l generalizing a b with
  | nil => simp [splitFirst] at h
  | cons c cs ih =>
    unfold splitFirst at h
    by_cases hc : c = sep
    · rw [if_pos hc] at h
      simp only [Option.some.injEq, Prod.mk.injEq] at h
      obtain ⟨rfl, rfl⟩ := h
      subst hc
      exact ⟨rfl, by simp⟩
    · rw [if_neg hc] at h
      cases hs : splitFirst sep cs with
      | none => rw [hs] at h; simp at h
      | some p =>
        obtain ⟨a', b'⟩ := p
        rw [hs] at h
        simp only [Option.map, Option.some.injEq, Prod.mk.injEq] at h
        obtain ⟨ha, hb⟩ := h
        subst hb
        subst ha
        obtain ⟨h1, h2⟩ := ih hs
        refine ⟨by rw [List.cons_append, ← h1], ?_⟩
        simp only [List.mem_cons, not_or]
        exact ⟨fun hh => hc hh.symm, h2⟩

theorem splitFirst_append {sep : Char} {a : List Char} (b : List Char)
    (ha : sep ∉ a) : splitFirst sep (a ++ sep :: b) = some (a, b) := by
  induction a with
  | nil => simp [splitFirst]
  | cons c a ih =>
    simp only [List.mem_cons, not_or] at ha
    rw [List.cons_append]
    unfold splitFirst
    rw [if_neg (fun h => ha.1 h.symm), ih ha.2]
    rfl

theorem afterLastDot_eq_none {l : List Char} (h : '.' ∉ l) :
    afterLastDot l = none := by
  induction l with
  | nil => rfl
  | cons c cs ih =>
    simp only [List.mem_cons, not_or] at h
    unfold afterLastDot
    rw [ih h.2, if_neg (fun hh => h.1 hh.symm)]

theorem afterLastDot_append {b : List Char} (p : List Char) (hb : '.' ∉ b) :
    afterLastDot (p ++ '.' :: b) = some b := by
  induction p with
  | nil =>
    rw [List.nil_append]
    unfold afterLastDot
    rw [afterLastDot_eq_none hb, if_pos rfl]
  | cons c p ih =>
    rw [List.cons_append]
    unfold afterLastDot
    rw [ih]

/-! ## Ingestion-step lemmas -/

theorem dirStep_eq (ats : List (String × AssetTypeDef)) (d : Directory)
    (e : CatalogEntry) :
    dirStep ats d e =
      match normalizeEntry ats e with
      | none => d
      | some (m, t) =>
        let inner := (findVal d m).getD []
        if (findVal inner t).isSome then d
        else setInner d m (inner ++ [(t, { feedId := e.pyth_lazer_id, assetType := m })]) := by
  unfold dirStep normalizeEntry
  cases h1 : e.state != "stable"
  · simp only [Bool.false_eq_true, if_false]
    cases h2 : findVal ASSET_TYPE_MAP e.asset_type with
    | none => rfl
    | some m =>
      cases h3 : (findVal ats m).isNone
      · simp only [h3, Bool.false_eq_true, if_false]
        cases h4 : parseTickerName e.symbol <;> rfl
      · simp only [h3, if_true]
  · simp only [if_true]

theorem normalizeEntry_eq_some (ats : List (String × AssetTypeDef))
    (e : CatalogEntry) (m t : String) :
    normalizeEntry ats e = some (m, t) ↔
      e.state = "stable" ∧ findVal ASSET_TYPE_MAP e.asset_type = some m ∧
      (findVal ats m).isSome = true ∧ parseTickerName e.symbol = some t := by
  unfold normalizeEntry
  by_cases h1 : e.state = "stable"
  · simp only [h1, bne_self_eq_false, Bool.false_eq_true, if_false, true_and]
    cases h2 : findVal ASSET_TYPE_MAP e.asset_type with
    | none => simp
    | some m' =>
      simp only [Option.some.injEq]
      by_cases h3 : (findVal ats m').isNone
      · rw [if_pos h3]
        constructor
        · intro h; exact absurd h (by simp)
        · rintro ⟨rfl, hs, _⟩
          rw [Option.isNone_iff_eq_none] at h3
          rw [h3] at hs
          simp at hs
      · rw [if_neg h3]
        cases h4 : parseTickerName e.symbol with
        | none =>
          constructor
          · intro h; exact absurd h (by simp)
          · rintro ⟨_, _, ht⟩; exact absurd ht (by simp)
        | some t' =>
          constructor
          · intro h
            simp only [Option.some.injEq, Prod.mk.injEq] at h
            obtain ⟨rfl, rfl⟩ := h
            refine ⟨rfl, ?_, rfl⟩
            cases hi : findVal ats m' with
            | none => exact absurd (by simp [hi]) h3
            | some x => simp
          · rintro ⟨rfl, _, ht⟩
            simp only [Option.some.injEq] at ht
            rw [ht]
  · have : (e.state != "stable") = true := by simpa [bne_iff_ne] using h1
    rw [if_pos this]
    simp [h1]

theorem getTickerInfo_dirStep_of_some {ats : List (String × AssetTypeDef)}
    {d : Directory} {e : CatalogEntry} {m t : String} {i : TickerInfo}
    (h : getTickerInfo d m t = some i) :
    getTickerInfo (dirStep ats d e) m t = some i := by
  rw [dirStep_eq]
  cases hn : normalizeEntry ats e with
  | none => exact h
  | some mt =>
    obtain ⟨m', t'⟩ := mt
    simp only []
    by_cases hg : (findVal ((findVal d m').getD []) t').isSome
    · rw [if_pos hg]; exact h
    · rw [if_neg hg]
      unfold getTickerInfo at h ⊢
      cases hfd : findVal d m with
      | none => rw [hfd] at h; simp at h
      | some inn0 =>
        rw [hfd] at h
        simp only [Option.some_bind] at h
        by_cases hm : m = m'
        · subst hm
          rw [hfd, findVal_setInner_self]
          simp only [Option.some_bind, Option.getD_some]
          exact findVal_append_some h
        · rw [findVal_setInner_other _ _ (fun hh => hm hh), hfd]
          simpa using h

theorem getTickerInfo_dirStep_isSome {ats : List (String × AssetTypeDef)}
    {d : Directory} {e : CatalogEntry} {m t : String}
    (hn : normalizeEntry ats e = some (m, t)) :
    (getTickerInfo (dirStep ats d e) m t).isSome = true := by
  rw [dirStep_eq, hn]
  simp only []
  by_cases hg : (findVal ((findVal d m).getD []) t).isSome
  · rw [if_pos hg]
    unfold getTickerInfo
    cases hfd : findVal d m with
    | none =>
      rw [hfd] at hg
      simp [findVal_nil] at hg
    | some inn0 =>
      rw [hfd] at hg
      simp only [Option.getD_some] at hg
      simpa using hg
  · rw [if_neg hg]
    unfold getTickerInfo
    rw [findVal_setInner_self]
    simp only [Option.some_bind]
    have hnone : findVal ((findVal d m).getD []) t = none := by
      cases hx : findVal ((findVal d m).getD []) t
      · rfl
      · exact absurd (by simp [hx]) hg
    rw [findVal_append_none hnone, findVal_cons, if_pos rfl]
    rfl

theorem getTickerInfo_dirStep_cases {ats : List (String × AssetTypeDef)}
    {d : Directory} {e : CatalogEntry} {m t : String}
    (h : (getTickerInfo (dirStep ats d e) m t).isSome = true) :
    (getTickerInfo d m t).isSome = true ∨ normalizeEntry ats e = some (m, t) := by
  rw [dirStep_eq] at h
  cases hn : normalizeEntry ats e with
  | none => rw [hn] at h; exact Or.inl h
  | some mt =>
    obtain ⟨m', t'⟩ := mt
    rw [hn] at h
    simp only [] at h
    by_cases hg : (findVal ((findVal d m').getD []) t').isSome
    · rw [if_pos hg] at h; exact Or.inl h
    · rw [if_neg hg] at h
      unfold getTickerInfo at h ⊢
      by_cases hm : m = m'
      · subst hm
        rw [findVal_setInner_self] at h
        simp only [Option.some_bind] at h
        cases hfd : findVal d m with
        | none =>
          right
          rw [hfd] at h
          simp only [Option.getD_none, List.nil_append] at h
          rw [findVal_cons] at h
          by_cases ht : t' = t
          · subst ht; rfl
          · rw [if_neg ht, findVal_nil] at h
            simp at h
        | some inn0 =>
          rw [hfd] at h
          simp only [Option.getD_some] at h
          cases hx : findVal inn0 t with
          | some v => left; simp [hx]
          | none =>
            right
            rw [findVal_append_none hx, findVal_cons] at h
            by_cases ht : t' = t
            · subst ht; rfl
            · rw [if_neg ht, findVal_nil] at h
              simp at h
      · rw [findVal_setInner_other _ _ (fun hh => hm hh)] at h
        exact Or.inl h

theorem getTickerInfo_foldl_of_some {ats : List (String × AssetTypeDef)}
    (cat : List CatalogEntry) {d : Directory} {m t : String} {i : TickerInfo}
    (h : getTickerInfo d m t = some i) :
    getTickerInfo (cat.foldl (dirStep ats) d) m t = some i := by
  induction cat generalizing d with
  | nil => exact h
  | cons e cat ih => exact ih (getTickerInfo_dirStep_of_some h)

theorem getTickerInfo_foldl_isSome_iff (ats : List (String × AssetTypeDef))
    (cat : List CatalogEntry) (d : Directory) (m t : String) :
    (getTickerInfo (cat.foldl (dirStep ats) d) m t).isSome = true ↔
      (getTickerInfo d m t).isSome = true ∨
        ∃ e ∈ cat, normalizeEntry ats e = some (m, t) := by
  induction cat generalizing d with
  | nil => simp
  | cons e cat ih =>
    rw [List.foldl_cons, ih]
    constructor
    · rintro (h1 | h1)
      · rcases getTickerInfo_dirStep_cases h1 with h2 | h2
        · exact Or.inl h2
        · exact Or.inr ⟨e, List.mem_cons_self _ _, h2⟩
      · obtain ⟨e', he', hn⟩ := h1
        exact Or.inr ⟨e', List.mem_cons_of_mem _ he', hn⟩
    · rintro (h1 | h1)
      · left
        obtain ⟨i, hi⟩ := Option.isSome_iff_exists.mp h1
        simp [getTickerInfo_dirStep_of_some hi]
      · obtain ⟨e', he', hn⟩ := h1
        rcases List.mem_cons.mp he' with rfl | he''
        · exact Or.inl (getTickerInfo_dirStep_isSome hn)
        · exact Or.inr ⟨e', he'', hn⟩

/-! ## The distinct-inner-keys invariant -/

theorem innerNodup_dirStep {ats : List (String × AssetTypeDef)} {d : Directory}
    (e : CatalogEntry) (h : InnerNodup d) : InnerNodup (dirStep ats d e) := by
  rw [dirStep_eq]
  cases hn : normalizeEntry ats e with
  | none => exact h
  | some mt =>
    obtain ⟨m, t⟩ := mt
    simp only []
    by_cases hg : (findVal ((findVal d m).getD []) t).isSome
    · rw [if_pos hg]; exact h
    · rw [if_neg hg]
      have hinner : (((findVal d m).getD []).map Prod.fst).Nodup := by
        cases hfd : findVal d m with
        | none => simp
        | some inn0 =>
          simp only [Option.getD_some]
          exact h _ (mem_of_findVal_eq_some hfd)
      have ht : t ∉ ((findVal d m).getD []).map Prod.fst := by
        intro hmem
        exact hg (findVal_isSome.mpr hmem)
      have hnewInner :
          ((((findVal d m).getD []) ++
            [((t, ({ feedId := e.pyth_lazer_id, assetType := m } : TickerInfo)))]).map
              Prod.fst).Nodup := by
        rw [List.map_append]
        rw [List.nodup_append]
        refine ⟨hinner, by simp, ?_⟩
        intro x hx hx'
        simp only [List.map_cons, List.map_nil, List.mem_singleton] at hx'
        subst hx'
        exact ht hx
      intro p hp
      unfold setInner at hp
      by_cases hpres : (d.find? (fun q => q.1 == m)).isSome
      · rw [if_pos hpres] at hp
        obtain ⟨q, hq, hfq⟩ := List.mem_map.mp hp
        by_cases hqm : (q.1 == m) = true
        · rw [if_pos hqm] at hfq
          rw [← hfq]
          exact hnewInner
        · rw [if_neg (by simpa using hqm)] at hfq
          rw [← hfq]
          exact h q hq
      · rw [if_neg hpres] at hp
        rcases List.mem_append.mp hp with h1 | h1
        · exact h _ h1
        · simp only [List.mem_singleton] at h1
          subst h1
          exact hnewInner

theorem innerNodup_initSymbols (ats : List (String × AssetTypeDef))
    (cat : List CatalogEntry) : InnerNodup (initSymbols ats cat) := by
  unfold initSymbols
  have : ∀ d : Directory, InnerNodup d → InnerNodup (cat.foldl (dirStep ats) d) := by
    induction cat with
    | nil => intro d h; exact h
    | cons e cat ih => intro d h; exact ih _ (innerNodup_dirStep e h)
  exact this [] (by intro p hp; simp at hp)

/-! ## Fold lemmas for the route matrix -/

theorem foldl_acc_append {α β : Type _} {step : List β → α → List β} (g : α → List β)
    (hstep : ∀ acc a, step acc a = acc ++ g a) :
    ∀ (l : List α) (init : List β), l.foldl step init = init ++ l.flatMap g := by
  intro l
  induction l with
  | nil => intro init; simp
  | cons a l ih =>
    intro init
    rw [List.foldl_cons, hstep, ih, List.flatMap_cons, List.append_assoc]

theorem filterMap_flatMap {α β γ : Type _} (l : List α) (g : α → List β)
    (f : β → Option γ) :
    (l.flatMap g).filterMap f = l.flatMap (fun a => (g a).filterMap f) := by
  induction l with
  | nil => rfl
  | cons a l ih => simp [List.flatMap_cons, List.filterMap_append, ih]

theorem getAllRouteConfigs_eq_routesSpec (cfg : PricingConfig) :
    getAllRouteConfigs cfg = routesSpec cfg := by
  have h1 : ∀ (a c : String) (l : List DurationTier) (init : List RouteConfig),
      l.foldl (fun acc2 dur =>
        match computePrice cfg a c dur.path with
        | some p => acc2 ++ [mkRouteConfig a c dur p]
        | none => acc2) init =
        init ++ l.filterMap (fun dur =>
          (computePrice cfg a c dur.path).map (mkRouteConfig a c dur)) := by
    intro a c l
    induction l with
    | nil => intro init; simp
    | cons x l ih =>
      intro init
      rw [List.foldl_cons]
      cases hf : computePrice cfg a c x.path with
      | none =>
        simp only [hf]
        rw [ih]
        simp [List.filterMap_cons, hf]
      | some b =>
        simp only [hf]
        rw [ih]
        simp [List.filterMap_cons, hf]
  have h2 : ∀ (a : String) (init : List RouteConfig),
      (cfg.channels.map Prod.fst).foldl (fun acc1 c =>
        cfg.durations.foldl (fun acc2 dur =>
          match computePrice cfg a c dur.path with
          | some p => acc2 ++ [mkRouteConfig a c dur p]
          | none => acc2) acc1) init =
        init ++ (cfg.channels.map Prod.fst).flatMap (fun c =>
          cfg.durations.filterMap (fun dur =>
            (computePrice cfg a c dur.path).map (mkRouteConfig a c dur))) := by
    intro a init
    exact foldl_acc_append _ (fun acc c => h1 a c cfg.durations acc)
      (cfg.channels.map Prod.fst) init
  have h3 : getAllRouteConfigs cfg =
      (cfg.assetTypes.map Prod.fst).flatMap (fun a =>
        (cfg.channels.map Prod.fst).flatMap (fun c =>
          cfg.durations.filterMap (fun dur =>
            (computePrice cfg a c dur.path).map (mkRouteConfig a c dur)))) := by
    unfold getAllRouteConfigs
    rw [foldl_acc_append _ (fun acc a => h2 a acc) (cfg.assetTypes.map Prod.fst) []]
    rfl
  rw [h3]
  unfold routesSpec routeProduct
  rw [filterMap_flatMap]
  refine List.flatMap_congr ?_
  intro a _
  rw [filterMap_flatMap]
  refine List.flatMap_congr ?_
  intro c _
  rw [List.filterMap_map]
  rfl

theorem computePrice_isSome_of_mem {cfg : PricingConfig} {a c : String}
    {d : DurationTier} (ha : a ∈ cfg.assetTypes.map Prod.fst)
    (hc : c ∈ cfg.channels.map Prod.fst) (hd : d ∈ cfg.durations) :
    (computePrice cfg a c d.path).isSome = true := by
  unfold computePrice
  obtain ⟨x, hx⟩ := Option.isSome_iff_exists.mp (findVal_isSome.mpr ha)
  obtain ⟨y, hy⟩ := Option.isSome_iff_exists.mp (findVal_isSome.mpr hc)
  have hfind : (cfg.durations.find? (fun t => t.path == d.path)).isSome = true := by
    rw [List.find?_isSome]
    exact ⟨d, hd, by simp⟩
  obtain ⟨z, hz⟩ := Option.isSome_iff_exists.mp hfind
  rw [hx, hy, hz]
  rfl

/-! ## Claim C2 -/

/-- C2: for every assetType key, channel key and duration path present in the
current pricing snapshot, `computePrice` returns exactly
`basePriceDollars * assetType.multiplier * channel.multiplier` rounded to two
decimal places and formatted with a leading currency symbol; in particular,
with base price 5, crypto multiplier 1 and fixed multiplier 2 it yields 10.00
formatted as a ten-dollar string. -/
theorem c2_computePrice_formula :
    (∀ (cfg : PricingConfig) (assetType channel durationPath : String)
        (a : AssetTypeDef) (c : ChannelDef) (dur : DurationTier),
        findVal cfg.assetTypes assetType = some a →
        findVal cfg.channels channel = some c →
        cfg.durations.find? (fun d => d.path == durationPath) = some dur →
        computePrice cfg assetType channel durationPath =
          some { dollars := round2 (dur.basePriceDollars * a.multiplier * c.multiplier)
                 formatted :=
                   "$" ++ formatCents (jsRound
                     (dur.basePriceDollars * a.multiplier * c.multiplier * 100)) }) ∧
    computePrice exampleConfig "crypto" "fixed" "1h" =
      some { dollars := 10, formatted := "$10.00" } := by
  constructor
  · intro cfg assetType channel durationPath a c dur ha hc hd
    unfold computePrice
    rw [ha, hc, hd]
    rfl
  · have h : jsRound 1000 = 1000 := by
      norm_num [jsRound, Rat.floor]
    simp only [computePrice, exampleConfig, findVal, List.find?]
    norm_num [h]
    decide

/-- Witness for C2: the general formula instantiated at the example config. -/
theorem c2_witness :
    computePrice exampleConfig "crypto" "fixed" "1h" =
      some { dollars := round2 ((5 : ℚ) * 1 * 2)
             formatted := "$" ++ formatCents (jsRound ((5 : ℚ) * 1 * 2 * 100)) } :=
  c2_computePrice_formula.1 exampleConfig "crypto" "fixed" "1h"
    { label := "Crypto", multiplier := 1 }
    { label := "Fixed rate", wsChannel := "fixed_rate@200ms", multiplier := 2 }
    { path := "1h", label := "1 hour", basePriceDollars := 5 }
    rfl rfl rfl

/-! ## Claim C5 -/

theorem pricingSchemaCheck_of_loadConfig {doc : RawPricingDoc} {u : PricingConfig}
    (h : loadConfig doc = some u) : pricingSchemaCheck u = true := by
  cases doc with
  | none => simp [loadConfig] at h
  | some c =>
    by_cases hc : pricingSchemaCheck c
    · simp only [loadConfig, hc, if_true, Option.some.injEq] at h
      rw [← h]
      exact hc
    · simp only [loadConfig, hc, Bool.false_eq_true, if_false] at h
      cases h

/-- C5: an invalid config at startup aborts startup; an invalid reload leaves
the previous snapshot unchanged; a reload never degrades a valid snapshot; and
a successful startup always holds a schema-valid snapshot — so the store is
never left without a valid snapshot. -/
theorem c5_config_load_safety :
    (∀ doc : RawPricingDoc,
        (∃ c, startupLoad doc = Except.ok c) ↔ (loadConfig doc).isSome = true) ∧
    (∀ (cur : PricingConfig) (doc : RawPricingDoc),
        loadConfig doc = none → reloadStep cur doc = cur) ∧
    (∀ (cur : PricingConfig) (doc : RawPricingDoc),
        pricingSchemaCheck cur = true → pricingSchemaCheck (reloadStep cur doc) = true) ∧
    (∀ (doc : RawPricingDoc) (c : PricingConfig),
        startupLoad doc = Except.ok c → pricingSchemaCheck c = true) := by
  refine ⟨?_, ?_, ?_, ?_⟩
  · intro doc
    unfold startupLoad
    cases hl : loadConfig doc with
    | none =>
      simp only [Option.isSome_none, Bool.false_eq_true, iff_false]
      rintro ⟨c, hc⟩
      simp at hc
    | some c => simp
  · intro cur doc h
    unfold reloadStep
    rw [h]
  · intro cur doc h
    unfold reloadStep
    cases hl : loadConfig doc with
    | none => exact h
    | some u => exact pricingSchemaCheck_of_loadConfig hl
  · intro doc c h
    unfold startupLoad at h
    cases hl : loadConfig doc with
    | none => rw [hl] at h; simp at h
    | some u =>
      rw [hl] at h
      cases h
      exact pricingSchemaCheck_of_loadConfig hl

/-- Witness for C5: instantiated at a concrete failing document (zero
multiplier) and a concrete previously-valid snapshot. -/
theorem c5_witness :
    ((∃ c, startupLoad (some badConfig) = Except.ok c) ↔
      (loadConfig (some badConfig)).isSome = true) ∧
    reloadStep exampleConfig (some badConfig) = exampleConfig ∧
    pricingSchemaCheck (reloadStep exampleConfig (some badConfig)) = true ∧
    pricingSchemaCheck exampleConfig = true :=
  ⟨c5_config_load_safety.1 (some badConfig),
   c5_config_load_safety.2.1 exampleConfig (some badConfig) (by decide),
   c5_config_load_safety.2.2.1 exampleConfig (some badConfig) (by decide),
   c5_config_load_safety.2.2.2 (some exampleConfig) exampleConfig rfl⟩

/-! ## Claim C9 -/

/-- C9: `getAllRouteConfigs` returns exactly the priceable combinations of the
full Cartesian product of configured asset types, channels and durations, one
route per combination with the computed formatted price and the purchase path
built from the triple; and every combination drawn from the same snapshot has
a resolvable price, so every combination appears. -/
theorem c9_route_matrix :
    (∀ cfg : PricingConfig, getAllRouteConfigs cfg = routesSpec cfg) ∧
    (∀ (cfg : PricingConfig) (a c : String) (d : DurationTier),
        a ∈ cfg.assetTypes.map Prod.fst → c ∈ cfg.channels.map Prod.fst →
        d ∈ cfg.durations → (computePrice cfg a c d.path).isSome = true) :=
  ⟨getAllRouteConfigs_eq_routesSpec,
   fun _ _ _ _ ha hc hd => computePrice_isSome_of_mem ha hc hd⟩

/-- Witness for C9: instantiated at the example config and its only
combination. -/
theorem c9_witness :
    getAllRouteConfigs exampleConfig = routesSpec exampleConfig ∧
    (computePrice exampleConfig "crypto" "fixed"
      ({ path := "1h", label := "1 hour", basePriceDollars := 5 } : DurationTier).path).isSome
      = true :=
  ⟨c9_route_matrix.1 exampleConfig,
   c9_route_matrix.2 exampleConfig "crypto" "fixed" _ (by decide) (by decide) (by decide)⟩

/-! ## Claims C6, C7, C8 -/

theorem stringMk_append_mk (a b : List Char) :
    String.mk a ++ String.mk b = String.mk (a ++ b) := rfl

theorem stringMk_dash (b q : List Char) :
    String.mk b ++ "-" ++ String.mk q = String.mk (b ++ '-' :: q) := by
  have h1 : "-" = String.mk ['-'] := rfl
  rw [h1, stringMk_append_mk, stringMk_append_mk, List.append_assoc]
  rfl

/-- C6: ingest keeps a catalog entry exactly when its state is stable, its
asset type alias-maps (metal to commodity) to a configured asset type, and its
symbol parses; the stored ticker is the segment after the last dot before the
slash, a hyphen, and the remainder after the slash, so the two spec example
symbols yield their base-quote tickers; failing entries are skipped. -/
theorem c6_ingestion :
    (∀ (ats : List (String × AssetTypeDef)) (d : Directory) (e : CatalogEntry),
        (¬ ∃ m t, e.state = "stable" ∧
          findVal ASSET_TYPE_MAP e.asset_type = some m ∧
          (findVal ats m).isSome = true ∧ parseTickerName e.symbol = some t) →
        dirStep ats d e = d) ∧
    (∀ (ats : List (String × AssetTypeDef)) (catalog : List CatalogEntry) (m t : String),
        (getTickerInfo (initSymbols ats catalog) m t).isSome = true ↔
          ∃ e ∈ catalog, e.state = "stable" ∧
            findVal ASSET_TYPE_MAP e.asset_type = some m ∧
            (findVal ats m).isSome = true ∧ parseTickerName e.symbol = some t) ∧
    (∀ (symbol : String) (p q p1 b : List Char),
        symbol.toList = p ++ '/' :: q → '/' ∉ p → p = p1 ++ '.' :: b → '.' ∉ b →
        b ≠ [] → q ≠ [] →
        parseTickerName symbol = some (String.mk (b ++ '-' :: q))) ∧
    parseTickerName "Crypto.BTC/USD" = some "BTC-USD" ∧
    parseTickerName "Equity.US.AAPL/USD" = some "AAPL-USD" ∧
    findVal ASSET_TYPE_MAP "metal" = some "commodity" := by
  refine ⟨?_, ?_, ?_, rfl, rfl, rfl⟩
  · intro ats d e h
    rw [dirStep_eq]
    cases hn : normalizeEntry ats e with
    | none => rfl
    | some mt =>
      obtain ⟨m, t⟩ := mt
      exact absurd ⟨m, t, (normalizeEntry_eq_some ats e m t).mp hn⟩ h
  · intro ats catalog m t
    unfold initSymbols
    rw [getTickerInfo_foldl_isSome_iff]
    constructor
    · rintro (h | ⟨e, he, hn⟩)
      · simp [getTickerInfo, findVal_nil] at h
      · exact ⟨e, he, (normalizeEntry_eq_some ats e m t).mp hn⟩
    · rintro ⟨e, he, hcond⟩
      exact Or.inr ⟨e, he, (normalizeEntry_eq_some ats e m t).mpr hcond⟩
  · intro symbol p q p1 b hsp hslash hp hdot hb hq
    unfold parseTickerName
    rw [hsp, splitFirst_append q hslash]
    simp only []
    subst hp
    rw [afterLastDot_append p1 hdot]
    have hbe : b.isEmpty = false := by
      cases b with
      | nil => exact absurd rfl hb
      | cons x xs => rfl
    have hqe : q.isEmpty = false := by
      cases q with
      | nil => exact absurd rfl hq
      | cons x xs => rfl
    simp only [hbe, hqe, Bool.or_self, Bool.false_eq_true, if_false]
    rw [stringMk_dash]

/-- Witness for C6: the metal alias at a concrete one-entry catalog, and the
general base-quote characterization at the crypto example symbol. -/
theorem c6_witness :
    (getTickerInfo (initSymbols
        [("commodity", { label := "Commodities", multiplier := 2 })]
        [{ state := "stable", asset_type := "metal", symbol := "Metal.XAG/USD",
           pyth_lazer_id := 5 }]) "commodity" "XAG-USD").isSome = true ∧
    parseTickerName "Crypto.BTC/USD" =
      some (String.mk (['B', 'T', 'C'] ++ '-' :: ['U', 'S', 'D'])) :=
  ⟨(c6_ingestion.2.1 _ _ "commodity" "XAG-USD").mpr
      ⟨{ state := "stable", asset_type := "metal", symbol := "Metal.XAG/USD",
         pyth_lazer_id := 5 },
       by simp, rfl, rfl, by decide, rfl⟩,
   c6_ingestion.2.2.1 "Crypto.BTC/USD"
     ['C', 'r', 'y', 'p', 't', 'o', '.', 'B', 'T', 'C'] ['U', 'S', 'D']
     ['C', 'r', 'y', 'p', 't', 'o'] ['B', 'T', 'C']
     (by decide) (by decide) (by decide) (by decide) (by decide) (by decide)⟩

/-- C7: within one ingestion pass, once a (assetType, ticker) pair holds the
feed id of an earlier-encountered entry, processing any later entries never
overwrites it. -/
theorem c7_first_seen_wins (ats : List (String × AssetTypeDef))
    (pre post : List CatalogEntry) (m t : String) (info : TickerInfo)
    (h : getTickerInfo (initSymbols ats pre) m t = some info) :
    getTickerInfo (initSymbols ats (pre ++ post)) m t = some info := by
  unfold initSymbols at h ⊢
  rw [List.foldl_append]
  exact getTickerInfo_foldl_of_some post h

/-- Witness for C7: a later stable entry normalizing to the same
(crypto, BTC-USD) pair with feed id 99 does not overwrite feed id 1. -/
theorem c7_witness :
    getTickerInfo (initSymbols exampleConfig.assetTypes
      (exampleCatalog ++
        [{ state := "stable", asset_type := "crypto",
           symbol := "Crypto.NAV.BTC/USD", pyth_lazer_id := 99 }]))
      "crypto" "BTC-USD" = some { feedId := 1, assetType := "crypto" } :=
  c7_first_seen_wins exampleConfig.assetTypes exampleCatalog
    [{ state := "stable", asset_type := "crypto", symbol := "Crypto.NAV.BTC/USD",
       pyth_lazer_id := 99 }] "crypto" "BTC-USD"
    { feedId := 1, assetType := "crypto" } (by decide)

/-- C8: if a ticker appears in the listing of an asset type of a built
directory, the point lookup returns a record with the same feed id as the
listing reports. -/
theorem c8_roundtrip (ats : List (String × AssetTypeDef))
    (catalog : List CatalogEntry) (assetType ticker : String) (info : TickerInfo)
    (h : (ticker, info) ∈ getTickersForAssetType (initSymbols ats catalog) assetType) :
    ∃ r, getTickerInfo (initSymbols ats catalog) assetType ticker = some r ∧
      r.feedId = info.feedId := by
  have hnd := innerNodup_initSymbols ats catalog
  unfold getTickersForAssetType at h
  cases hfd : findVal (initSymbols ats catalog) assetType with
  | none => rw [hfd] at h; simp at h
  | some inner =>
    rw [hfd] at h
    simp only [Option.getD_some] at h
    have hfind : findVal inner ticker = some info :=
      findVal_of_mem_nodup h (hnd _ (mem_of_findVal_eq_some hfd))
    refine ⟨info, ?_, rfl⟩
    unfold getTickerInfo
    rw [hfd]
    simpa using hfind

/-- Witness for C8: instantiated at the example directory's only entry. -/
theorem c8_witness :
    ∃ r, getTickerInfo (initSymbols exampleConfig.assetTypes exampleCatalog)
        "crypto" "BTC-USD" = some r ∧
      r.feedId = ({ feedId := 1, assetType := "crypto" } : TickerInfo).feedId :=
  c8_roundtrip exampleConfig.assetTypes exampleCatalog "crypto" "BTC-USD"
    { feedId := 1, assetType := "crypto" } (by decide)

/-! ## Claim C4 -/

theorem isEmpty_false_iff {α : Type _} (l : List α) : l.isEmpty = false ↔ l ≠ [] := by
  cases l <;> simp

theorem tickerMatches_iff (s : String) :
    tickerMatches s = true ↔ amendedTickerPattern s := by
  constructor
  · intro h
    unfold tickerMatches at h
    cases hs : splitFirst '-' s.toList with
    | none => rw [hs] at h; simp at h
    | some p =>
      obtain ⟨b, q⟩ := p
      rw [hs] at h
      rw [Bool.and_eq_true, Bool.and_eq_true, Bool.and_eq_true,
        Bool.not_eq_true', Bool.not_eq_true'] at h
      obtain ⟨⟨⟨hbe, hball⟩, hqe⟩, hqall⟩ := h
      obtain ⟨hl, _⟩ := splitFirst_eq_some hs
      exact ⟨b, q, hl, (isEmpty_false_iff b).mp hbe, hball,
        (isEmpty_false_iff q).mp hqe, hqall⟩
  · rintro ⟨b, q, hl, hb, hball, hq, hqall⟩
    have hmem : '-' ∉ b := by
      intro hm
      have := List.all_eq_true.mp hball _ hm
      simp [isUpperAlnum] at this
    unfold tickerMatches
    rw [hl, splitFirst_append q hmem]
    rw [Bool.and_eq_true, Bool.and_eq_true, Bool.and_eq_true,
      Bool.not_eq_true', Bool.not_eq_true']
    exact ⟨⟨⟨(isEmpty_false_iff b).mpr hb, hball⟩, (isEmpty_false_iff q).mpr hq⟩, hqall⟩

/-- C4 (amended): a purchase body ticker is accepted by the validation step iff
it is an uppercase alphanumeric base, a hyphen, and an uppercase alphabetic
quote; a missing or non-string ticker, or one not of that shape, is rejected
with a 400 validation error for every directory — before any lookup. -/
theorem c4_ticker_validation :
    (∀ s : String, tickerMatches s = true ↔ amendedTickerPattern s) ∧
    (∀ (cfg : PricingConfig) (env : EnvConfig) (d : Directory)
        (assetType channelSlug duration : String),
        purchaseHandler cfg env d assetType channelSlug duration none =
          PurchaseResult.validationError) ∧
    (∀ (cfg : PricingConfig) (env : EnvConfig) (d : Directory)
        (assetType channelSlug duration s : String),
        tickerMatches s = false →
        purchaseHandler cfg env d assetType channelSlug duration (some s) =
          PurchaseResult.validationError) ∧
    (∀ (cfg : PricingConfig) (env : EnvConfig) (d : Directory)
        (assetType channelSlug duration s : String),
        tickerMatches s = true →
        purchaseHandler cfg env d assetType channelSlug duration (some s) ≠
          PurchaseResult.validationError) := by
  refine ⟨tickerMatches_iff, fun _ _ _ _ _ _ => rfl, ?_, ?_⟩
  · intro cfg env d assetType channelSlug duration s h
    simp [purchaseHandler, h]
  · intro cfg env d assetType channelSlug duration s h
    simp only [purchaseHandler, h, Bool.not_true, Bool.false_eq_true, if_false]
    cases getTickerInfo d assetType s <;> simp

/-- C4 counterexample: the ticker with a digit in its quote part matches the
claimed pattern (uppercase alphanumeric quote) but the handler rejects it with
a validation error before any lookup. -/
theorem c4_counterexample :
    claimedTickerPattern "BTC-US2" ∧
    purchaseHandler exampleConfig exampleEnv exampleDir "crypto" "fixed" "1h"
      (some "BTC-US2") = PurchaseResult.validationError :=
  ⟨⟨['B', 'T', 'C'], ['U', 'S', '2'], by decide, by decide, by decide, by decide,
    by decide⟩, by decide⟩

/-- Witness for C4: the amended pattern and the rejection paths at concrete
tickers. -/
theorem c4_witness :
    (tickerMatches "BTC-USD" = true ↔ amendedTickerPattern "BTC-USD") ∧
    purchaseHandler exampleConfig exampleEnv exampleDir "crypto" "fixed" "1h" none =
      PurchaseResult.validationError ∧
    purchaseHandler exampleConfig exampleEnv exampleDir "crypto" "fixed" "1h"
      (some "btc-usd") = PurchaseResult.validationError ∧
    purchaseHandler exampleConfig exampleEnv exampleDir "crypto" "fixed" "1h"
      (some "BTC-USD") ≠ PurchaseResult.validationError :=
  ⟨c4_ticker_validation.1 "BTC-USD",
   c4_ticker_validation.2.1 exampleConfig exampleEnv exampleDir "crypto" "fixed" "1h",
   c4_ticker_validation.2.2.1 exampleConfig exampleEnv exampleDir "crypto" "fixed" "1h"
     "btc-usd" (by decide),
   c4_ticker_validation.2.2.2 exampleConfig exampleEnv exampleDir "crypto" "fixed" "1h"
     "BTC-USD" (by decide)⟩

/-! ## Claim C1 -/

/-- C1 counterexample: on a registered route shape whose (assetType, channel,
duration) triple has no resolvable price, the handler still answers 200 with a
fulfilled credential descriptor and surfaces no distinct error. -/
theorem c1_counterexample :
    computePrice exampleConfig "crypto" "fixed" "24h" = none ∧
    (purchaseHandler exampleConfig exampleEnv exampleDir "crypto" "fixed" "24h"
      (some "BTC-USD")).isFulfilled = true :=
  ⟨rfl, by decide⟩

/-- C1 (amended): when `computePrice` returns absence for the route's triple,
the handler surfaces no route-desynchronization error at all: for a valid
known ticker it responds 200 with a fulfilled credential descriptor whose
pricePaid field is absent. -/
theorem c1_price_absent_still_fulfilled (cfg : PricingConfig) (env : EnvConfig)
    (d : Directory) (assetType channelSlug duration ticker : String)
    (info : TickerInfo) (h1 : tickerMatches ticker = true)
    (h2 : getTickerInfo d assetType ticker = some info)
    (h3 : computePrice cfg assetType channelSlug duration = none) :
    ∃ cred, purchaseHandler cfg env d assetType channelSlug duration (some ticker) =
        PurchaseResult.fulfilled cred ∧ cred.pricePaid = none := by
  simp only [purchaseHandler, h1, Bool.not_true, Bool.false_eq_true, if_false, h2,
    h3, Option.map_none']
  exact ⟨_, rfl, rfl⟩

/-- Witness for C1's amended theorem at the concrete missing duration. -/
theorem c1_witness :
    ∃ cred, purchaseHandler exampleConfig exampleEnv exampleDir "crypto" "fixed"
        "24h" (some "BTC-USD") = PurchaseResult.fulfilled cred ∧
      cred.pricePaid = none :=
  c1_price_absent_still_fulfilled exampleConfig exampleEnv exampleDir "crypto"
    "fixed" "24h" "BTC-USD" { feedId := 1, assetType := "crypto" }
    (by decide) (by decide) rfl

/-! ## Claim C10 -/

/-- C10: if at fulfillment time the route's channel key is absent from the
current pricing snapshot, the handler still returns a 200 credential whose
subscribe message channel falls back to the literal default stream name. -/
theorem c10_channel_fallback (cfg : PricingConfig) (env : EnvConfig)
    (d : Directory) (assetType channelSlug duration ticker : String)
    (info : TickerInfo) (h1 : tickerMatches ticker = true)
    (h2 : getTickerInfo d assetType ticker = some info)
    (h3 : findVal cfg.channels channelSlug = none) :
    ∃ cred, purchaseHandler cfg env d assetType channelSlug duration (some ticker) =
        PurchaseResult.fulfilled cred ∧
      cred.subscribe.channel = "fixed_rate@200ms" := by
  simp only [purchaseHandler, h1, Bool.not_true, Bool.false_eq_true, if_false, h2,
    h3, Option.map_none', Option.getD_none]
  exact ⟨_, rfl, rfl⟩

/-- Witness for C10 at a channel slug absent from the example config. -/
theorem c10_witness :
    ∃ cred, purchaseHandler exampleConfig exampleEnv exampleDir "crypto" "premium"
        "1h" (some "BTC-USD") = PurchaseResult.fulfilled cred ∧
      cred.subscribe.channel = "fixed_rate@200ms" :=
  c10_channel_fallback exampleConfig exampleEnv exampleDir "crypto" "premium" "1h"
    "BTC-USD" { feedId := 1, assetType := "crypto" } (by decide) (by decide) rfl

/-! ## Claim C3 -/

/-- C3 (amended): a pricing request whose ticker parameter parses to a
non-empty ticker list, none of which is found in any configured asset type, is
answered 400 with code INVALID_TICKER, a message naming the not-found tickers,
and the static symbol-lookup hint — not a list of the available tickers. -/
theorem c3_invalid_ticker_response (cfg : PricingConfig) (dir : Directory)
    (s : String) (h0 : s ≠ "") (h1 : parsedTickers s ≠ [])
    (h2 : ∀ t ∈ parsedTickers s, ∀ a ∈ cfg.assetTypes.map Prod.fst,
        getTickerInfo dir a t = none) :
    pricingHandler cfg dir { ticker := some s, assetType := none, channel := none } =
      PricingResponse.err
        { code := "INVALID_TICKER"
          message := "Ticker(s) not found: " ++
            String.intercalate ", " (parsedTickers s)
          hint := some symbolsHint } := by
  have hse : s.isEmpty = false := by
    cases hs : s.isEmpty
    · rfl
    · exact absurd ((String.isEmpty_iff s).mp hs) h0
  have hfil : (parsedTickers s).filter (fun t =>
      !(cfg.assetTypes.map Prod.fst).any (fun a => (getTickerInfo dir a t).isSome)) =
      parsedTickers s := by
    rw [List.filter_eq_self]
    intro t ht
    rw [Bool.not_eq_true', List.any_eq_false]
    intro a ha
    simp [h2 t ht a ha]
  have hlen : 0 < (parsedTickers s).length := List.length_pos.mpr h1
  unfold pricingHandler
  simp only [strTruthy, Bool.false_and, Bool.false_eq_true, if_false, hse,
    Bool.not_false, if_true, Option.getD_some, hfil, hlen, decide_True,
    Bool.and_self, decide_eq_true_eq]

/-- C3 counterexample: the spec example request answers 400 INVALID_TICKER,
but its message names only the unknown ticker and carries a static lookup
hint; the available ticker of the directory does not occur in it. -/
theorem c3_counterexample :
    pricingHandler exampleConfig exampleDir
      { ticker := some "FAKE-USD", assetType := none, channel := none } =
      PricingResponse.err
        { code := "INVALID_TICKER"
          message := "Ticker(s) not found: FAKE-USD"
          hint := some symbolsHint } ∧
    (getTickersForAssetType exampleDir "crypto").map Prod.fst = ["BTC-USD"] ∧
    ¬ ("BTC-USD".toList <:+: "Ticker(s) not found: FAKE-USD".toList) :=
  ⟨by decide, by decide, by decide⟩

/-- Witness for C3's amended theorem at the spec example input. -/
theorem c3_witness :
    pricingHandler exampleConfig exampleDir
      { ticker := some "FAKE-USD", assetType := none, channel := none } =
      PricingResponse.err
        { code := "INVALID_TICKER"
          message := "Ticker(s) not found: " ++
            String.intercalate ", " (parsedTickers "FAKE-USD")
          hint := some symbolsHint } :=
  c3_invalid_ticker_response exampleConfig exampleDir "FAKE-USD" (by decide)
    (by decide) (by decide)

end Gateway
